import Mathlib

/-!
Verification development for the Phoenix repository's DDD shared kit
(packages/core/src/domain/shared): ValueObject, Entity, AggregateRoot,
DomainEvent, Result, and the placeholder package stubs.

The embedding models JavaScript runtime values by the inductive type
JSVal.  JS reference equality on composite values (arrays, plain
objects, Dates) is modelled as never holding between the two compared
values; this is sound for the functions embedded here because each of
them returns the same answer on a value compared against itself through
the structural path (see deepEquals_refl below), so dropping the
same-reference shortcut does not change any observable result.
Numbers are modelled as integers (no NaN/Infinity arise in the claims).
-/

namespace Phoenix

/-- A JavaScript runtime value, as far as the shared kit inspects one:
null, undefined, booleans, numbers, strings, arrays, plain objects
(own enumerable string keys in insertion order, without duplicates),
and Date objects carrying their epoch-milliseconds time value. -/
inductive JSVal where
  | null : JSVal
  | undef : JSVal
  | bool : Bool → JSVal
  | num : Int → JSVal
  | str : String → JSVal
  | arr : List JSVal → JSVal
  | obj : List (String × JSVal) → JSVal
  | date : Int → JSVal

/-- The JavaScript `typeof` operator on a JSVal.  Note `typeof null`
is the string "object", and Date objects and arrays are "object". -/
def jsTypeof : JSVal → String
  | JSVal.null => "object"
  | JSVal.undef => "undefined"
  | JSVal.bool _ => "boolean"
  | JSVal.num _ => "number"
  | JSVal.str _ => "string"
  | JSVal.arr _ => "object"
  | JSVal.obj _ => "object"
  | JSVal.date _ => "object"

/-- Whether the value is null or undefined (the guard
`a === null or a === undefined` of deepEquals). -/
def isNullish : JSVal → Bool
  | JSVal.null => true
  | JSVal.undef => true
  | _ => false

/-- JavaScript strict equality `a === b` restricted to the reference
discipline explained in the file header: primitives compare by value,
while two composite values under comparison are taken to be distinct
references (so `===` is false on them). -/
def strictEq : JSVal → JSVal → Bool
  | JSVal.null, JSVal.null => true
  | JSVal.undef, JSVal.undef => true
  | JSVal.bool a, JSVal.bool b => a == b
  | JSVal.num a, JSVal.num b => a == b
  | JSVal.str a, JSVal.str b => a == b
  | _, _ => false

/-- The own enumerable (key, value) properties of a value, in order:
the fields of a plain object, the stringified indices of an array, and
nothing for every other value (in particular a Date has none, which is
what makes the generic object branch of deepEquals accept any two
Dates). -/
def jsFields : JSVal → List (String × JSVal)
  | JSVal.obj fs => fs
  | JSVal.arr xs => xs.enum.map (fun p => (Nat.repr p.1, p.2))
  | _ => []

/-- `Object.keys` of a value. -/
def jsKeys (v : JSVal) : List String :=
  (jsFields v).map Prod.fst

/-- Property read `v[k]`: the first field named `k`, or undefined. -/
def jsGet (v : JSVal) (k : String) : JSVal :=
  ((jsFields v).lookup k).getD JSVal.undef

theorem lookup_mem_pairs {l : List (String × JSVal)} {k : String} {v : JSVal}
    (h : l.lookup k = some v) : ∃ k0, (k0, v) ∈ l := by
  induction l with
  | nil => simp [List.lookup] at h
  | cons p t ih =>
    rw [List.lookup] at h
    by_cases hk : k == p.1
    · refine ⟨p.1, ?_⟩
      simp [hk] at h
      simp [← h]
    · simp [hk] at h
      obtain ⟨k0, hk0⟩ := ih h
      exact ⟨k0, List.mem_cons_of_mem _ hk0⟩

theorem lookup_some_of_mem_keys {l : List (String × JSVal)} {k : String}
    (h : k ∈ l.map Prod.fst) : ∃ v, l.lookup k = some v := by
  induction l with
  | nil => simp at h
  | cons p t ih =>
    rw [List.lookup]
    by_cases hk : k == p.1
    · exact ⟨p.2, by simp [hk]⟩
    · have h0 : k ∈ Prod.fst p :: t.map Prod.fst := by simpa using h
      rcases List.mem_cons.mp h0 with h1 | h1
      · exact absurd (by simp [h1]) hk
      · simpa [hk] using ih h1

theorem sizeOf_mem_jsFields {a : JSVal} {k : String} {v : JSVal}
    (h : (k, v) ∈ jsFields a) : sizeOf v < sizeOf a := by
  cases a with
  | obj fs =>
    have h1 : sizeOf (k, v) < sizeOf fs := List.sizeOf_lt_of_mem h
    simp at h1
    simp
    omega
  | arr xs =>
    rw [jsFields] at h
    obtain ⟨p, hp, he⟩ := List.mem_map.mp h
    have hxs : p.2 ∈ xs := by
      have h2 := List.mem_enum_iff_getElem?.mp hp
      rw [List.getElem?_eq_some] at h2
      obtain ⟨hlt, hgeq⟩ := h2
      exact hgeq ▸ List.getElem_mem hlt
    have h1 : sizeOf p.2 < sizeOf xs := List.sizeOf_lt_of_mem hxs
    have hv : p.2 = v := congrArg Prod.snd he
    rw [hv] at h1
    simp
    omega
  | null => simp [jsFields] at h
  | undef => simp [jsFields] at h
  | bool b => simp [jsFields] at h
  | num n => simp [jsFields] at h
  | str s => simp [jsFields] at h
  | date t => simp [jsFields] at h

theorem sizeOf_jsGet_lt {a : JSVal} {k : String} (h : k ∈ jsKeys a) :
    sizeOf (jsGet a k) < sizeOf a := by
  obtain ⟨v, hv⟩ := lookup_some_of_mem_keys (l := jsFields a) h
  obtain ⟨k0, hk0⟩ := lookup_mem_pairs hv
  have := sizeOf_mem_jsFields hk0
  simpa [jsGet, hv] using this

/-- ValueObject.deepEquals from
packages/core/src/domain/shared/ValueObject.ts, branch for branch:
strict equality first; then the null/undefined guard; then the
`typeof` comparison; then the two-arrays branch (length check and
index-wise recursion); then the generic two-objects branch (comparing
`Object.keys` and recursing through each key); then the Date branch
(which, as in the source, is unreachable because Dates already satisfy
`typeof x === "object"`); otherwise false. -/
def deepEquals (a b : JSVal) : Bool :=
  if strictEq a b then true
  else if isNullish a || isNullish b then strictEq a b
  else if jsTypeof a != jsTypeof b then false
  else
    match a, b with
    | JSVal.arr xs, JSVal.arr ys =>
      xs.length == ys.length &&
        (xs.zip ys).attach.all (fun p => deepEquals p.1.1 p.1.2)
    | x, y =>
      if jsTypeof x == "object" && jsTypeof y == "object" then
        (jsKeys x).length == (jsKeys y).length &&
          (jsKeys x).attach.all
            (fun k => (jsKeys y).contains k.1 && deepEquals (jsGet x k.1) (jsGet y k.1))
      else
        match x, y with
        | JSVal.date t, JSVal.date s => t == s
        | _, _ => false
termination_by sizeOf a
decreasing_by
  · have hmem : p.1 ∈ xs.zip ys := p.2
    have hfst : p.1.1 ∈ xs := by
      have := List.of_mem_zip (a := p.1.1) (b := p.1.2) (by simpa using hmem)
      exact this.1
    have h1 : sizeOf p.1.1 < sizeOf xs := List.sizeOf_lt_of_mem hfst
    simp
    omega
  · exact sizeOf_jsGet_lt k.2

theorem mem_zip_self {l : List JSVal} {p : JSVal × JSVal} (h : p ∈ l.zip l) :
    p.1 = p.2 := by
  induction l with
  | nil => simp at h
  | cons x t ih =>
    rw [List.zip_cons_cons] at h
    rcases List.mem_cons.mp h with h1 | h1
    · subst h1; rfl
    · exact ih h1

/-- deepEquals is reflexive on every modelled value: comparing a value
against a structurally identical one through the structural path gives
true.  This is what makes it sound to model the strict-equality tests
of the source as false on composite values: whenever the two sides are
in fact the same reference, the structural path returns the same
answer true. -/
theorem deepEquals_refl (x : JSVal) : deepEquals x x = true := by
  cases x with
  | null => rw [deepEquals.eq_def]; simp [strictEq]
  | undef => rw [deepEquals.eq_def]; simp [strictEq]
  | bool b => rw [deepEquals.eq_def]; simp [strictEq]
  | num n => rw [deepEquals.eq_def]; simp [strictEq]
  | str s => rw [deepEquals.eq_def]; simp [strictEq]
  | arr xs =>
    rw [deepEquals.eq_def]
    simp [strictEq, isNullish, jsTypeof]
    intro a b hab
    have h1 : a = b := mem_zip_self hab
    subst h1
    exact deepEquals_refl a
  | obj fs =>
    rw [deepEquals.eq_def]
    simp [strictEq, isNullish, jsTypeof]
    intro k hk
    exact ⟨hk, deepEquals_refl (jsGet (JSVal.obj fs) k)⟩
  | date t =>
    rw [deepEquals.eq_def]
    simp [strictEq, isNullish, jsTypeof, jsKeys, jsFields]
termination_by sizeOf x
decreasing_by
  · have hfst := (List.of_mem_zip hab).1
    have h2 := List.sizeOf_lt_of_mem hfst
    simp
    omega
  · exact sizeOf_jsGet_lt hk

/-- An instance of a concrete ValueObject subclass: its constructor
(identified by the class, classes being in bijection with their
constructor functions) and the array returned by its
getEqualityComponents implementation. -/
structure VOVal where
  className : String
  components : List JSVal

/-- ValueObject.equals from the source: false on null/undefined, false
when the constructors differ, otherwise
`getEqualityComponents().every((component, index) => deepEquals(component, other.getEqualityComponents()[index]))`
where an index beyond the other array reads as undefined. -/
def voEquals (a : VOVal) (other : Option VOVal) : Bool :=
  match other with
  | none => false
  | some b =>
    if a.className != b.className then false
    else a.components.enum.all
      (fun p => deepEquals p.2 (b.components.getD p.1 JSVal.undef))

/-- An instance of a concrete Entity subclass: its constructor
(by class), its id value object, and its remaining attributes
(which equals never reads). -/
structure EntityVal where
  className : String
  id : VOVal
  attrs : List (String × JSVal)

/-- The Entity constructor: `if (!id) throw new Error(...)`; a missing
(null or undefined) id is rejected, otherwise the id is stored as is.
The source's check `!id` can only fire on null/undefined since a
ValueObject instance is always truthy. -/
def mkEntity (className : String) (id : Option VOVal)
    (attrs : List (String × JSVal)) : Except String EntityVal :=
  match id with
  | none => Except.error "Entity ID cannot be null or undefined"
  | some i => Except.ok ⟨className, i, attrs⟩

/-- Entity.equals from the source: false on null/undefined, false when
the constructors differ, otherwise this.id.equals(other.id).  The
source's `this === other` early-true shortcut is dropped; it is
subsumed by the structural path (see voEquals_refl below). -/
def entityEquals (a : EntityVal) (other : Option EntityVal) : Bool :=
  match other with
  | none => false
  | some b =>
    if a.className != b.className then false
    else voEquals a.id (some b.id)

/-- ValueObject.equals is reflexive, which justifies dropping the
`this === other` shortcut of Entity.equals in the embedding. -/
theorem voEquals_refl (a : VOVal) : voEquals a (some a) = true := by
  rw [voEquals]
  simp
  intro i c hic
  have hg : a.components[i]? = some c := List.mem_enum_iff_getElem?.mp hic
  rw [hg]
  exact deepEquals_refl c

/-- A `string | Error` value as stored in the `_error` field of a
Result: either a plain string or an Error object carrying a message. -/
inductive JSErrVal where
  | ofString : String → JSErrVal
  | ofError : String → JSErrVal
deriving DecidableEq

/-- A value thrown by a JavaScript callback: an Error object, or any
other value (recorded through the string `String(error)` coerces it
to, which is all the catch blocks of Result ever read from it). -/
inductive JSException where
  | errorObj : String → JSException
  | nonError : String → JSException
deriving DecidableEq

/-- The conversion applied in the catch blocks of Result.map and
Result.flatMap: `error instanceof Error ? error : String(error)`. -/
def caughtToErrVal : JSException → JSErrVal
  | JSException.errorObj m => JSErrVal.ofError m
  | JSException.nonError s => JSErrVal.ofString s

/-- The Result class.  Its constructor is private and is invoked only
by `ok` (as `new Result(true, value)`, so with `_error` undefined) and
by `fail` (as `new Result(false, undefined, error)`), hence every
reachable instance is exactly one of these two shapes, which are the
two constructors here: `_isSuccess`, `_value` and `_error` are then
read off by the getters below. -/
inductive Result (α : Type) where
  | ok : α → Result α
  | fail : JSErrVal → Result α

namespace Result

/-- Getter isSuccess: returns the `_isSuccess` field. -/
def isSuccess : Result α → Bool
  | ok _ => true
  | fail _ => false

/-- Getter isFailure: returns `!this._isSuccess`. -/
def isFailure (r : Result α) : Bool :=
  !r.isSuccess

/-- Getter value: throws "Cannot get value from failed result" when
`_isSuccess` is false, otherwise returns the stored value. -/
def value : Result α → Except String α
  | ok v => Except.ok v
  | fail _ => Except.error "Cannot get value from failed result"

/-- Getter error: returns the `_error` field, which is undefined
(none) on a success. -/
def error : Result α → Option JSErrVal
  | ok _ => none
  | fail e => some e

/-- Result.combine: scan the list in order, returning
`Result.fail(result.error!)` at the first failure, and otherwise
`Result.ok(values)` where `values` collects `result.value` of each
result in order.  `go` is the loop with `values` the accumulator. -/
def combine.go : List (Result α) → List α → Result (List α)
  | [], values => ok values
  | r :: rest, values =>
    match r with
    | fail e => fail e
    | ok v => combine.go rest (values ++ [v])

/-- Entry point of Result.combine. -/
def combine (results : List (Result α)) : Result (List α) :=
  combine.go results []

/-- Result.map: on a failure, `Result.fail(this._error!)`; on a
success, `Result.ok(fn(this.value))` inside try/catch, a thrown
exception being converted by the catch block. -/
def map (r : Result α) (fn : α → Except JSException β) : Result β :=
  match r with
  | fail e => fail e
  | ok v =>
    match fn v with
    | Except.ok u => ok u
    | Except.error ex => fail (caughtToErrVal ex)

/-- Result.flatMap: on a failure, `Result.fail(this._error!)`; on a
success, `fn(this.value)` inside try/catch, a thrown exception being
converted by the catch block. -/
def flatMap (r : Result α) (fn : α → Except JSException (Result β)) : Result β :=
  match r with
  | fail e => fail e
  | ok v =>
    match fn v with
    | Except.ok res => res
    | Except.error ex => fail (caughtToErrVal ex)

end Result

/-- An observable DomainEvent instance: the three public readonly
fields set by the base-class constructor. -/
structure DomainEventV where
  eventId : String
  eventType : String
  occurredAt : Int
deriving DecidableEq

/-- The characters String.prototype.trim removes, per ECMAScript:
WhiteSpace (TAB, VT, FF, SP, NBSP, ZWNBSP and the Unicode
space-separator category Zs) and LineTerminator (LF, CR, LS, PS). -/
def jsWhitespaceChars : List Char :=
  ['\t', '\n', '\x0b', '\x0c', '\r', ' ', '\xa0', '\u1680',
   '\u2000', '\u2001', '\u2002', '\u2003', '\u2004', '\u2005', '\u2006',
   '\u2007', '\u2008', '\u2009', '\u200a', '\u2028', '\u2029', '\u202f',
   '\u205f', '\u3000', '\ufeff']

/-- Whether String.prototype.trim strips this character. -/
def isJsWhitespace (c : Char) : Bool :=
  jsWhitespaceChars.contains c

/-- The JavaScript String.prototype.trim: drop leading and trailing
JS whitespace. -/
def jsTrim (s : String) : String :=
  String.mk
    ((s.data.dropWhile isJsWhitespace).reverse.dropWhile isJsWhitespace).reverse

/-- The DomainEvent constructor from
packages/core/src/domain/shared/DomainEvent.ts.  Its two environment
inputs are passed explicitly: `freshUuid` is the value returned by
`randomUUID()` and `now` the clock reading `new Date()` would take.
It throws when `eventType` is empty or all-whitespace
(`!eventType || eventType.trim().length === 0`), and otherwise sets
`eventId = randomUUID()`, `eventType`, and
`occurredAt = occurredAt || new Date()` (a Date argument is always
truthy, so the default fires exactly when the argument is absent). -/
def mkDomainEvent (freshUuid : String) (now : Int) (eventType : String)
    (occurredAt : Option Int) : Except String DomainEventV :=
  if eventType = "" || (jsTrim eventType).length = 0 then
    Except.error "Event type cannot be empty"
  else
    Except.ok ⟨freshUuid, eventType, occurredAt.getD now⟩

/-- createApiServer from packages/api/src/index.ts: logs the
pending-phase message and returns null.  The value is the list of
console lines written paired with the returned value. -/
def createApiServer : List String × JSVal :=
  (["Phoenix API server - implementation pending Phase 2-4"], JSVal.null)

/-- createDatabaseConfig from packages/database/src/index.ts: returns
null and does nothing else. -/
def createDatabaseConfig : JSVal :=
  JSVal.null

/-- The part of the JavaScript heap the AggregateRoot code touches: the
allocated DomainEvent arrays.  A reference is an index into the
allocation list; allocation appends. -/
structure EventStore where
  arrs : List (List DomainEventV)
deriving DecidableEq

/-- Read the array behind a reference (out-of-range references never
arise for states built by the operations below). -/
def EventStore.read (s : EventStore) (r : Nat) : List DomainEventV :=
  s.arrs.getD r []

/-- An external write to an array through some reference, modelling a
caller mutating an array it obtained. -/
def EventStore.write (s : EventStore) (r : Nat) (contents : List DomainEventV) :
    EventStore :=
  ⟨s.arrs.set r contents⟩

/-- An AggregateRoot instance: the inherited id and the reference held
in the private `_domainEvents` field. -/
structure AggState where
  id : VOVal
  bufRef : Nat

/-- The AggregateRoot constructor: the field initialiser
`private _domainEvents: DomainEvent[] = []` allocates a fresh empty
array (the id goes through the Entity constructor, modelled by
mkEntity above). -/
def mkAggregate (s : EventStore) (id : VOVal) : EventStore × AggState :=
  (⟨s.arrs ++ [[]]⟩, ⟨id, s.arrs.length⟩)

/-- AggregateRoot.raise: `if (!event) throw new Error(...)`, otherwise
`this._domainEvents.push(event)` mutates the buffer array in place.
The aggregate object itself is returned unchanged alongside the heap,
since the method only writes through the buffer reference. -/
def raise (s : EventStore) (a : AggState) (event : Option DomainEventV) :
    Except String (EventStore × AggState) :=
  match event with
  | none => Except.error "Cannot raise null or undefined domain event"
  | some e => Except.ok (⟨s.arrs.set a.bufRef (s.read a.bufRef ++ [e])⟩, a)

/-- A sequence of raise calls, in list order (a test-harness device:
each step is exactly one call of raise above). -/
def raiseAll : EventStore → AggState → List DomainEventV →
    Except String (EventStore × AggState)
  | s, a, [] => Except.ok (s, a)
  | s, a, e :: es =>
    match raise s a (some e) with
    | Except.error m => Except.error m
    | Except.ok (s1, a1) => raiseAll s1 a1 es

/-- AggregateRoot.getUncommittedEvents: `return [...this._domainEvents]`
allocates a fresh array holding the same elements and returns a
reference to it. -/
def getUncommittedEvents (s : EventStore) (a : AggState) : EventStore × Nat :=
  (⟨s.arrs ++ [s.read a.bufRef]⟩, s.arrs.length)

/-- AggregateRoot.markEventsAsCommitted: `this._domainEvents = []`
rebinds the field to a freshly allocated empty array (the previous
array is left as it was). -/
def markEventsAsCommitted (s : EventStore) (a : AggState) : EventStore × AggState :=
  (⟨s.arrs ++ [[]]⟩, ⟨a.id, s.arrs.length⟩)

/-- AggregateRoot.getUncommittedEventCount: `this._domainEvents.length`. -/
def getUncommittedEventCount (s : EventStore) (a : AggState) : Nat :=
  (s.read a.bufRef).length

/-- AggregateRoot.hasUncommittedEvents: `this._domainEvents.length > 0`. -/
def hasUncommittedEvents (s : EventStore) (a : AggState) : Bool :=
  decide ((s.read a.bufRef).length > 0)

theorem set_read_self (s : EventStore) (r : Nat) (h : r < s.arrs.length) :
    s.arrs.set r (s.read r) = s.arrs := by
  have h1 : s.arrs.getD r [] = s.arrs[r] := List.getD_eq_getElem s.arrs [] h
  rw [EventStore.read, h1]
  apply List.ext_getElem?
  intro i
  rw [List.getElem?_set]
  split
  · next hir => subst hir; simp [h]
  · rfl

theorem read_set_self (s : EventStore) (r : Nat) (v : List DomainEventV)
    (h : r < s.arrs.length) : EventStore.read ⟨s.arrs.set r v⟩ r = v := by
  simp [EventStore.read, List.getD_eq_getElem?_getD, List.getElem?_set, h]

theorem read_append_one (s : EventStore) (v : List DomainEventV) :
    EventStore.read ⟨s.arrs ++ [v]⟩ s.arrs.length = v := by
  simp [EventStore.read, List.getD_eq_getElem?_getD]

theorem raiseAll_closed_form (es : List DomainEventV) :
    ∀ (s : EventStore) (a : AggState), a.bufRef < s.arrs.length →
      raiseAll s a es =
        Except.ok (⟨s.arrs.set a.bufRef (s.read a.bufRef ++ es)⟩, a) := by
  induction es with
  | nil =>
    intro s a hr
    rw [raiseAll]
    have h2 : s.arrs.set a.bufRef (s.read a.bufRef ++ []) = s.arrs := by
      rw [List.append_nil]
      exact set_read_self s a.bufRef hr
    rw [h2]
  | cons e t ih =>
    intro s a hr
    rw [raiseAll, raise]
    have hr1 : a.bufRef < (List.set s.arrs a.bufRef (s.read a.bufRef ++ [e])).length := by
      simpa using hr
    show raiseAll ⟨s.arrs.set a.bufRef (s.read a.bufRef ++ [e])⟩ a t =
      Except.ok (⟨s.arrs.set a.bufRef (s.read a.bufRef ++ e :: t)⟩, a)
    rw [ih ⟨s.arrs.set a.bufRef (s.read a.bufRef ++ [e])⟩ a hr1]
    rw [read_set_self s a.bufRef (s.read a.bufRef ++ [e]) hr]
    rw [List.set_set, List.append_assoc]
    rfl

theorem combine_go_map_ok {α : Type} (vs : List α) :
    ∀ acc : List α, Result.combine.go (vs.map Result.ok) acc = Result.ok (acc ++ vs) := by
  induction vs with
  | nil => intro acc; simp [Result.combine.go]
  | cons v t ih =>
    intro acc
    rw [List.map_cons, Result.combine.go, ih]
    simp

theorem combine_go_first_fail {α : Type} (pre : List (Result α)) :
    ∀ (acc : List α) (e : JSErrVal) (post : List (Result α)),
      (∀ r ∈ pre, r.isFailure = false) →
      Result.combine.go (pre ++ Result.fail e :: post) acc = Result.fail e := by
  induction pre with
  | nil => intro acc e post _; rw [List.nil_append, Result.combine.go]
  | cons r t ih =>
    intro acc e post hok
    cases r with
    | fail e0 =>
      have := hok (Result.fail e0) (List.mem_cons_self _ _)
      simp [Result.isFailure, Result.isSuccess] at this
    | ok v =>
      rw [List.cons_append, Result.combine.go]
      exact ih (acc ++ [v]) e post (fun r hr => hok r (List.mem_cons_of_mem _ hr))

/-- Claim C2: Result.ok yields isSuccess true, isFailure false, value
equal to the given value and error undefined; Result.fail yields
isFailure true, error equal to the given error, and reading value on
it throws instead of returning a value. -/
theorem c2_ok_fail_observables :
    ∀ (α : Type) (v : α) (e : JSErrVal),
      (Result.ok v).isSuccess = true ∧
      (Result.ok v).isFailure = false ∧
      (Result.ok v).value = Except.ok v ∧
      (Result.ok v).error = none ∧
      (Result.fail e : Result α).isFailure = true ∧
      (Result.fail e : Result α).error = some e ∧
      (Result.fail e : Result α).value =
        Except.error "Cannot get value from failed result" := by
  intro α v e
  exact ⟨rfl, rfl, rfl, rfl, rfl, rfl, rfl⟩

/-- Claim C4: on a failed Result, map and flatMap return a failure
carrying the same error for every callback; on a successful Result, a
callback that throws makes map (and flatMap) return a failure wrapping
the thrown exception rather than propagating the throw. -/
theorem c4_map_flatmap_error_propagation :
    ∀ (α β : Type) (e : JSErrVal) (fn : α → Except JSException β)
      (gn : α → Except JSException (Result β)) (v : α) (ex : JSException),
      ((Result.fail e : Result α).map fn = Result.fail e) ∧
      ((Result.fail e : Result α).flatMap gn = Result.fail e) ∧
      (fn v = Except.error ex →
        (Result.ok v).map fn = Result.fail (caughtToErrVal ex)) ∧
      (gn v = Except.error ex →
        (Result.ok v).flatMap gn = Result.fail (caughtToErrVal ex)) := by
  intro α β e fn gn v ex
  refine ⟨rfl, rfl, ?_, ?_⟩
  · intro h
    rw [Result.map, h]
  · intro h
    rw [Result.flatMap, h]

/-- Claim C4 witness: the theorem applied at concrete inputs. -/
theorem c4_witness :
    ((Result.fail (JSErrVal.ofString "boom") : Result Nat).map
      (fun _ => (Except.error (JSException.errorObj "x") : Except JSException Nat)) =
      Result.fail (JSErrVal.ofString "boom")) ∧
    ((Result.fail (JSErrVal.ofString "boom") : Result Nat).flatMap
      (fun _ => (Except.error (JSException.errorObj "x") : Except JSException (Result Nat))) =
      Result.fail (JSErrVal.ofString "boom")) ∧
    ((Result.ok (0 : Nat)).map
      (fun _ => (Except.error (JSException.errorObj "x") : Except JSException Nat)) =
      Result.fail (JSErrVal.ofError "x")) ∧
    ((Result.ok (0 : Nat)).flatMap
      (fun _ => (Except.error (JSException.errorObj "x") : Except JSException (Result Nat))) =
      Result.fail (JSErrVal.ofError "x")) := by
  have h := c4_map_flatmap_error_propagation Nat Nat (JSErrVal.ofString "boom")
    (fun _ => (Except.error (JSException.errorObj "x") : Except JSException Nat))
    (fun _ => (Except.error (JSException.errorObj "x") : Except JSException (Result Nat)))
    0 (JSException.errorObj "x")
  exact ⟨h.1, h.2.1, h.2.2.1 rfl, h.2.2.2 rfl⟩

/-- Claim C5: every Result is in exactly one of the two states: for
every Result, isFailure is the negation of isSuccess, so exactly one
of the two flags holds; every Result operation returns a Result, so
the dichotomy is preserved. -/
theorem c5_success_failure_dichotomy :
    ∀ (α : Type) (r : Result α),
      r.isFailure = !r.isSuccess ∧
      (r.isSuccess = true ∨ r.isFailure = true) ∧
      ¬(r.isSuccess = true ∧ r.isFailure = true) := by
  intro α r
  cases r with
  | ok v => exact ⟨rfl, Or.inl rfl, by simp [Result.isSuccess, Result.isFailure]⟩
  | fail e => exact ⟨rfl, Or.inr rfl, by simp [Result.isSuccess, Result.isFailure]⟩

/-- Claim C6: the placeholder stubs return null; createApiServer only
logs the pending-phase message besides. -/
theorem c6_stubs_return_null :
    createApiServer =
      (["Phoenix API server - implementation pending Phase 2-4"], JSVal.null) ∧
    createDatabaseConfig = JSVal.null :=
  ⟨rfl, rfl⟩

/-- Claim C8: Result.combine of the empty list is a success with the
empty list; on an all-success list it succeeds with the values in
order; when a failure is present it returns the failure carrying the
error of the first failed result, whatever comes after it. -/
theorem c8_combine_first_failure_or_values :
    ∀ (α : Type) (vs : List α) (pre : List (Result α)) (e : JSErrVal)
      (post : List (Result α)),
      (Result.combine ([] : List (Result α)) = Result.ok []) ∧
      (Result.combine (vs.map Result.ok) = Result.ok vs) ∧
      ((∀ r ∈ pre, r.isFailure = false) →
        Result.combine (pre ++ Result.fail e :: post) = Result.fail e) := by
  intro α vs pre e post
  refine ⟨rfl, ?_, ?_⟩
  · rw [Result.combine, combine_go_map_ok]
    simp
  · intro hok
    exact combine_go_first_fail pre [] e post hok

/-- Claim C8 witness: the theorem applied at concrete inputs. -/
theorem c8_witness :
    (Result.combine ([] : List (Result Nat)) = Result.ok []) ∧
    (Result.combine [Result.ok 1, Result.ok 2, Result.ok 3] = Result.ok [1, 2, 3]) ∧
    (Result.combine [Result.ok 1, Result.fail (JSErrVal.ofString "e1"),
        Result.fail (JSErrVal.ofString "e2"), Result.ok 4] =
      Result.fail (JSErrVal.ofString "e1")) := by
  have h := c8_combine_first_failure_or_values Nat [1, 2, 3] [Result.ok 1]
    (JSErrVal.ofString "e1") [Result.fail (JSErrVal.ofString "e2"), Result.ok 4]
  exact ⟨h.1, h.2.1, h.2.2 (by intro r hr; simp at hr; rw [hr]; rfl)⟩

/-- Claim C3: raise appends the event to the uncommitted-event buffer
(and rejects a null/undefined event), a sequence of raises appends in
raise order, getUncommittedEvents returns an array holding exactly the
buffered events in that order, getUncommittedEventCount is their
number, hasUncommittedEvents holds iff that number is positive, and
after markEventsAsCommitted the aggregate has zero uncommitted events
(a freshly constructed aggregate starts with an empty, valid buffer). -/
theorem c3_aggregate_event_bookkeeping :
    ∀ (s : EventStore) (a : AggState) (e : DomainEventV) (es : List DomainEventV)
      (i : VOVal),
      a.bufRef < s.arrs.length →
      (raise s a (some e) =
          Except.ok (⟨s.arrs.set a.bufRef (s.read a.bufRef ++ [e])⟩, a) ∧
        EventStore.read ⟨s.arrs.set a.bufRef (s.read a.bufRef ++ [e])⟩ a.bufRef =
          s.read a.bufRef ++ [e]) ∧
      (raise s a none = Except.error "Cannot raise null or undefined domain event") ∧
      (raiseAll s a es =
        Except.ok (⟨s.arrs.set a.bufRef (s.read a.bufRef ++ es)⟩, a)) ∧
      ((getUncommittedEvents s a).1.read (getUncommittedEvents s a).2 =
        s.read a.bufRef) ∧
      (getUncommittedEventCount s a = (s.read a.bufRef).length) ∧
      (hasUncommittedEvents s a = true ↔ 0 < getUncommittedEventCount s a) ∧
      (getUncommittedEventCount (markEventsAsCommitted s a).1
        (markEventsAsCommitted s a).2 = 0) ∧
      ((mkAggregate s i).1.read (mkAggregate s i).2.bufRef = [] ∧
        (mkAggregate s i).2.bufRef < (mkAggregate s i).1.arrs.length) := by
  intro s a e es i hr
  refine ⟨⟨rfl, read_set_self s a.bufRef _ hr⟩, rfl,
    raiseAll_closed_form es s a hr, ?_, rfl, ?_, ?_, ?_, ?_⟩
  · exact read_append_one s (s.read a.bufRef)
  · simp [hasUncommittedEvents, getUncommittedEventCount]
  · show (EventStore.read ⟨s.arrs ++ [[]]⟩ s.arrs.length).length = 0
    rw [read_append_one]
    rfl
  · exact read_append_one s []
  · simp [mkAggregate]

/-- Claim C3 witness: the theorem applied at a concrete store holding
one aggregate whose buffer already holds one event. -/
theorem c3_witness :
    ((⟨⟨"OrderId", [JSVal.str "o-1"]⟩, 0⟩ : AggState).bufRef <
      (⟨[[⟨"a", "Created", 0⟩]]⟩ : EventStore).arrs.length) ∧
    ((raise ⟨[[⟨"a", "Created", 0⟩]]⟩ ⟨⟨"OrderId", [JSVal.str "o-1"]⟩, 0⟩
          (some ⟨"b", "Updated", 1⟩) =
        Except.ok (⟨[[⟨"a", "Created", 0⟩, ⟨"b", "Updated", 1⟩]]⟩,
          ⟨⟨"OrderId", [JSVal.str "o-1"]⟩, 0⟩) ∧
      EventStore.read ⟨[[⟨"a", "Created", 0⟩, ⟨"b", "Updated", 1⟩]]⟩ 0 =
        [⟨"a", "Created", 0⟩, ⟨"b", "Updated", 1⟩])) ∧
    (raise ⟨[[⟨"a", "Created", 0⟩]]⟩ ⟨⟨"OrderId", [JSVal.str "o-1"]⟩, 0⟩ none =
      Except.error "Cannot raise null or undefined domain event") ∧
    (raiseAll ⟨[[⟨"a", "Created", 0⟩]]⟩ ⟨⟨"OrderId", [JSVal.str "o-1"]⟩, 0⟩
        [⟨"b", "Updated", 1⟩, ⟨"c", "Closed", 2⟩] =
      Except.ok (⟨[[⟨"a", "Created", 0⟩, ⟨"b", "Updated", 1⟩, ⟨"c", "Closed", 2⟩]]⟩,
        ⟨⟨"OrderId", [JSVal.str "o-1"]⟩, 0⟩)) ∧
    ((getUncommittedEvents ⟨[[⟨"a", "Created", 0⟩]]⟩
          ⟨⟨"OrderId", [JSVal.str "o-1"]⟩, 0⟩).1.read
        (getUncommittedEvents ⟨[[⟨"a", "Created", 0⟩]]⟩
          ⟨⟨"OrderId", [JSVal.str "o-1"]⟩, 0⟩).2 = [⟨"a", "Created", 0⟩]) ∧
    (getUncommittedEventCount ⟨[[⟨"a", "Created", 0⟩]]⟩
      ⟨⟨"OrderId", [JSVal.str "o-1"]⟩, 0⟩ = 1) ∧
    (hasUncommittedEvents ⟨[[⟨"a", "Created", 0⟩]]⟩
        ⟨⟨"OrderId", [JSVal.str "o-1"]⟩, 0⟩ = true ↔ 0 < 1) ∧
    (getUncommittedEventCount
      (markEventsAsCommitted ⟨[[⟨"a", "Created", 0⟩]]⟩
        ⟨⟨"OrderId", [JSVal.str "o-1"]⟩, 0⟩).1
      (markEventsAsCommitted ⟨[[⟨"a", "Created", 0⟩]]⟩
        ⟨⟨"OrderId", [JSVal.str "o-1"]⟩, 0⟩).2 = 0) ∧
    ((mkAggregate ⟨[[⟨"a", "Created", 0⟩]]⟩ ⟨"OrderId", [JSVal.str "o-2"]⟩).1.read
        (mkAggregate ⟨[[⟨"a", "Created", 0⟩]]⟩ ⟨"OrderId", [JSVal.str "o-2"]⟩).2.bufRef
        = [] ∧
      (mkAggregate ⟨[[⟨"a", "Created", 0⟩]]⟩ ⟨"OrderId", [JSVal.str "o-2"]⟩).2.bufRef <
        (mkAggregate ⟨[[⟨"a", "Created", 0⟩]]⟩
          ⟨"OrderId", [JSVal.str "o-2"]⟩).1.arrs.length) :=
  ⟨by decide,
    c3_aggregate_event_bookkeeping ⟨[[⟨"a", "Created", 0⟩]]⟩
      ⟨⟨"OrderId", [JSVal.str "o-1"]⟩, 0⟩ ⟨"b", "Updated", 1⟩
      [⟨"b", "Updated", 1⟩, ⟨"c", "Closed", 2⟩] ⟨"OrderId", [JSVal.str "o-2"]⟩
      (by decide)⟩

/-- Claim C10: getUncommittedEvents returns a reference distinct from
the buffer reference, holding a copy, so writing any contents through
the returned reference leaves the buffer unchanged (and the call
itself leaves the buffer unchanged); raise and markEventsAsCommitted
return an aggregate with the same id (and raise also keeps the same
buffer reference), so only the event buffer changes. -/
theorem c10_fresh_copy_and_id_frame :
    ∀ (s : EventStore) (a : AggState) (contents : List DomainEventV)
      (e : DomainEventV),
      a.bufRef < s.arrs.length →
      ((getUncommittedEvents s a).2 ≠ a.bufRef) ∧
      (((getUncommittedEvents s a).1.write (getUncommittedEvents s a).2
          contents).read a.bufRef = s.read a.bufRef) ∧
      ((getUncommittedEvents s a).1.read a.bufRef = s.read a.bufRef) ∧
      (∀ s1 a1, raise s a (some e) = Except.ok (s1, a1) →
        a1.id = a.id ∧ a1.bufRef = a.bufRef) ∧
      ((markEventsAsCommitted s a).2.id = a.id) := by
  intro s a contents e hr
  have hne : s.arrs.length ≠ a.bufRef := Nat.ne_of_gt hr
  refine ⟨hne, ?_, ?_, ?_, rfl⟩
  · show EventStore.read
      ⟨(s.arrs ++ [s.read a.bufRef]).set s.arrs.length contents⟩ a.bufRef =
        s.read a.bufRef
    simp [EventStore.read, List.getD_eq_getElem?_getD, List.getElem?_set, hne,
      List.getElem?_append, hr]
  · show EventStore.read ⟨s.arrs ++ [s.read a.bufRef]⟩ a.bufRef = s.read a.bufRef
    simp [EventStore.read, List.getD_eq_getElem?_getD, List.getElem?_append, hr]
  · intro s1 a1 h
    rw [raise] at h
    simp at h
    rw [← h.2]
    exact ⟨rfl, rfl⟩

/-- Claim C10 witness: the theorem applied at a concrete store holding
one aggregate with one buffered event, mutating the returned array to
a two-event array. -/
theorem c10_witness :
    ((⟨⟨"OrderId", [JSVal.str "o-1"]⟩, 0⟩ : AggState).bufRef <
      (⟨[[⟨"a", "Created", 0⟩]]⟩ : EventStore).arrs.length) ∧
    ((getUncommittedEvents ⟨[[⟨"a", "Created", 0⟩]]⟩
        ⟨⟨"OrderId", [JSVal.str "o-1"]⟩, 0⟩).2 ≠ 0) ∧
    (((getUncommittedEvents ⟨[[⟨"a", "Created", 0⟩]]⟩
          ⟨⟨"OrderId", [JSVal.str "o-1"]⟩, 0⟩).1.write
        (getUncommittedEvents ⟨[[⟨"a", "Created", 0⟩]]⟩
          ⟨⟨"OrderId", [JSVal.str "o-1"]⟩, 0⟩).2
        [⟨"x", "Fake", 9⟩, ⟨"y", "Fake", 9⟩]).read 0 = [⟨"a", "Created", 0⟩]) ∧
    ((getUncommittedEvents ⟨[[⟨"a", "Created", 0⟩]]⟩
        ⟨⟨"OrderId", [JSVal.str "o-1"]⟩, 0⟩).1.read 0 = [⟨"a", "Created", 0⟩]) ∧
    (∀ s1 a1,
      raise ⟨[[⟨"alpha", "Created", 0⟩]]⟩ ⟨⟨"OrderId", [JSVal.str "o-1"]⟩, 0⟩
          (some ⟨"b", "Updated", 1⟩) = Except.ok (s1, a1) →
        a1.id = ⟨"OrderId", [JSVal.str "o-1"]⟩ ∧ a1.bufRef = 0) ∧
    ((markEventsAsCommitted ⟨[[⟨"a", "Created", 0⟩]]⟩
      ⟨⟨"OrderId", [JSVal.str "o-1"]⟩, 0⟩).2.id = ⟨"OrderId", [JSVal.str "o-1"]⟩) := by
  have h := c10_fresh_copy_and_id_frame ⟨[[⟨"a", "Created", 0⟩]]⟩
    ⟨⟨"OrderId", [JSVal.str "o-1"]⟩, 0⟩ [⟨"x", "Fake", 9⟩, ⟨"y", "Fake", 9⟩]
    ⟨"b", "Updated", 1⟩ (by decide)
  have h2 := c10_fresh_copy_and_id_frame ⟨[[⟨"alpha", "Created", 0⟩]]⟩
    ⟨⟨"OrderId", [JSVal.str "o-1"]⟩, 0⟩ [] ⟨"b", "Updated", 1⟩ (by decide)
  exact ⟨by decide, h.1, h.2.1, h.2.2.1, h2.2.2.2.1, h.2.2.2.2⟩

/-- Claim C9: Entity.equals is id-based equality: for entities of the
same concrete class it returns exactly what the id value objects'
equals returns, independently of all other attributes; it returns
false on null/undefined and on a different concrete class; and the
Entity constructor rejects a missing id and stores the given one. -/
theorem c9_entity_id_equality :
    ∀ (c c2 : String) (i i2 : VOVal) (at1 at2 at3 at4 : List (String × JSVal)),
      (c = c2 →
        entityEquals ⟨c, i, at1⟩ (some ⟨c2, i2, at2⟩) = voEquals i (some i2)) ∧
      (c ≠ c2 → entityEquals ⟨c, i, at1⟩ (some ⟨c2, i2, at2⟩) = false) ∧
      (entityEquals ⟨c, i, at1⟩ none = false) ∧
      (entityEquals ⟨c, i, at1⟩ (some ⟨c2, i2, at2⟩) =
        entityEquals ⟨c, i, at3⟩ (some ⟨c2, i2, at4⟩)) ∧
      (mkEntity c none at1 = Except.error "Entity ID cannot be null or undefined") ∧
      (mkEntity c (some i) at1 = Except.ok ⟨c, i, at1⟩) := by
  intro c c2 i i2 at1 at2 at3 at4
  refine ⟨?_, ?_, rfl, rfl, rfl, rfl⟩
  · intro h
    subst h
    simp [entityEquals]
  · intro h
    simp [entityEquals, h]

/-- Claim C9 witness: the theorem applied to concrete User entities
(same id but different name attributes, then a class mismatch). -/
theorem c9_witness :
    (entityEquals ⟨"User", ⟨"UserId", [JSVal.str "u-1"]⟩, [("name", JSVal.str "Ada")]⟩
        (some ⟨"User", ⟨"UserId", [JSVal.str "u-1"]⟩, [("name", JSVal.str "Grace")]⟩) =
      voEquals ⟨"UserId", [JSVal.str "u-1"]⟩ (some ⟨"UserId", [JSVal.str "u-1"]⟩)) ∧
    (entityEquals ⟨"User", ⟨"UserId", [JSVal.str "u-1"]⟩, []⟩
        (some ⟨"Account", ⟨"UserId", [JSVal.str "u-1"]⟩, []⟩) = false) ∧
    (entityEquals ⟨"User", ⟨"UserId", [JSVal.str "u-1"]⟩, []⟩ none = false) ∧
    (mkEntity "User" none [] =
      Except.error "Entity ID cannot be null or undefined") ∧
    (mkEntity "User" (some ⟨"UserId", [JSVal.str "u-1"]⟩) [] =
      Except.ok ⟨"User", ⟨"UserId", [JSVal.str "u-1"]⟩, []⟩) := by
  have h1 := c9_entity_id_equality "User" "User" ⟨"UserId", [JSVal.str "u-1"]⟩
    ⟨"UserId", [JSVal.str "u-1"]⟩ [("name", JSVal.str "Ada")]
    [("name", JSVal.str "Grace")] [] []
  have h2 := c9_entity_id_equality "User" "Account" ⟨"UserId", [JSVal.str "u-1"]⟩
    ⟨"UserId", [JSVal.str "u-1"]⟩ [] [] [] []
  exact ⟨h1.1 rfl, h2.2.1 (by decide), h2.2.2.1, h2.2.2.2.2.1, h2.2.2.2.2.2⟩

/-- Claim C7 counterexample: the DomainEvent constructor is not a
deterministic function of eventType and the explicit occurredAt: two
constructions with the same eventType and the same explicit occurredAt
but the two distinct UUIDs drawn by randomUUID differ in the
observable eventId field. -/
theorem c7_counterexample :
    (mkDomainEvent "11111111-1111-4111-8111-111111111111" 0 "UserRegistered" (some 5)
      ).map DomainEventV.eventId ≠
    (mkDomainEvent "22222222-2222-4222-8222-222222222222" 0 "UserRegistered" (some 5)
      ).map DomainEventV.eventId := by
  intro h
  rw [mkDomainEvent, if_neg (by decide), mkDomainEvent, if_neg (by decide)] at h
  simp [Except.map] at h

/-- Claim C7 amended: for the DomainEvent constructor, the eventType
and an explicitly passed occurredAt are determined by the arguments —
two constructions with the same eventType and explicit occurredAt
agree on those fields and on whether they throw — but the eventId is
the randomUUID draw, so the constructed events are not equal in all
observable fields: they differ in eventId whenever the draws differ
(the other clock-reading operations of the kit, such as getAge and
createSnapshot, are likewise environment-dependent and are not
claimed deterministic). -/
theorem c7_amended_event_fields :
    ∀ (u1 u2 : String) (n1 n2 : Int) (t : String) (d : Int),
      ((mkDomainEvent u1 n1 t (some d)).map (fun ev => (ev.eventType, ev.occurredAt)) =
        (mkDomainEvent u2 n2 t (some d)).map (fun ev => (ev.eventType, ev.occurredAt))) ∧
      ((jsTrim t).length ≠ 0 →
        mkDomainEvent u1 n1 t (some d) = Except.ok ⟨u1, t, d⟩) ∧
      ((jsTrim t).length = 0 →
        mkDomainEvent u1 n1 t (some d) = Except.error "Event type cannot be empty") := by
  intro u1 u2 n1 n2 t d
  refine ⟨?_, ?_, ?_⟩
  · rw [mkDomainEvent, mkDomainEvent]
    split
    · rfl
    · rfl
  · intro h
    have ht : t ≠ "" := by
      intro he
      subst he
      exact h rfl
    rw [mkDomainEvent, if_neg (by simp [h, ht])]
    exact rfl
  · intro h
    rw [mkDomainEvent, if_pos (by simp [h])]

/-- Claim C7 amended witness: the theorem applied at two concrete UUID
draws, a valid event type, and event types that JS trim reduces to
the empty string — one of plain spaces, one a single vertical tab
U+000B, and one a no-break space U+00A0 (characters JS
String.prototype.trim strips). -/
theorem c7_amended_witness :
    ((mkDomainEvent "11111111-1111-4111-8111-111111111111" 0 "UserRegistered" (some 5)
        ).map (fun ev => (ev.eventType, ev.occurredAt)) =
      (mkDomainEvent "22222222-2222-4222-8222-222222222222" 7 "UserRegistered" (some 5)
        ).map (fun ev => (ev.eventType, ev.occurredAt))) ∧
    (mkDomainEvent "11111111-1111-4111-8111-111111111111" 0 "UserRegistered" (some 5) =
      Except.ok ⟨"11111111-1111-4111-8111-111111111111", "UserRegistered", 5⟩) ∧
    (mkDomainEvent "11111111-1111-4111-8111-111111111111" 0 "   " (some 5) =
      Except.error "Event type cannot be empty") ∧
    (mkDomainEvent "11111111-1111-4111-8111-111111111111" 0 "\x0b" (some 5) =
      Except.error "Event type cannot be empty") ∧
    (mkDomainEvent "11111111-1111-4111-8111-111111111111" 0 "\xa0" (some 5) =
      Except.error "Event type cannot be empty") := by
  have h1 := c7_amended_event_fields "11111111-1111-4111-8111-111111111111"
    "22222222-2222-4222-8222-222222222222" 0 7 "UserRegistered" 5
  have h2 := c7_amended_event_fields "11111111-1111-4111-8111-111111111111"
    "22222222-2222-4222-8222-222222222222" 0 7 "   " 5
  have h3 := c7_amended_event_fields "11111111-1111-4111-8111-111111111111"
    "22222222-2222-4222-8222-222222222222" 0 7 "\x0b" 5
  have h4 := c7_amended_event_fields "11111111-1111-4111-8111-111111111111"
    "22222222-2222-4222-8222-222222222222" 0 7 "\xa0" 5
  exact ⟨h1.1, h1.2.1 (by decide), h2.2.2 (by decide), h3.2.2 (by decide),
    h4.2.2 (by decide)⟩

/-- Claim C1, evaluation at the failing input: two value objects of
the same concrete class whose single equality component is a Date,
with the two Dates denoting different instants (epoch milliseconds 0
and 1), nevertheless compare equal, because deepEquals reaches the
generic object branch before its Date branch and a Date has no own
enumerable keys. -/
theorem c1_date_bug_eval :
    deepEquals (JSVal.date 0) (JSVal.date 1) = true ∧
    voEquals ⟨"Appointment", [JSVal.date 0]⟩
      (some ⟨"Appointment", [JSVal.date 1]⟩) = true := by
  have h : deepEquals (JSVal.date 0) (JSVal.date 1) = true := by
    rw [deepEquals.eq_def]
    simp [strictEq, isNullish, jsTypeof, jsKeys, jsFields]
  refine ⟨h, ?_⟩
  rw [voEquals]
  simp [List.enum, List.enumFrom, h]

end Phoenix
